import Mathlib

/-!
# A shallow embedding of the Hibiki runtime core (src/state.ts)

This file embeds, in Lean 4, the parts of `src/state.ts` that the
verified properties below are about: the scope chain (`DataEnvironment`),
the event-dispatch machine (`getEventBoundary` / `fireEvent`), the action
processing pipeline (`HibikiState.processActions` and the invalidation
registry), the handler gateway (`parseHandler`,
`HibikiState.callHandlerInternalAsync`), fetch-module method validation
(`FetchModule.callHandler`), root resolution (`resolveRoot`), and the
initialization callback queue.

Modelling conventions:
* A `DataEnvironment` parent chain is a list of frames, current scope
  first; the empty list plays the role of a null environment reference.
* JavaScript objects used as string-keyed maps are association lists
  `List (String × _)`; `Object.assign` / key updates keep the original
  key position, as JS property update does.
* Dynamic values are the inductive `HVal`; `HVal.vnull` models both
  `null` and `undefined` where the distinction does not matter.
* Asynchronous execution and external collaborators (the expression
  evaluator, mobx observables, the DOM) are represented by the
  observable effects the embedded code triggers: which handler body runs
  and in which error mode, which refresh callbacks are invoked and what
  state they can see when invoked, which error is thrown.
-/

/-- Dynamic Hibiki data values (the subset the verified claims touch). -/
inductive HVal where
  | vnull
  | vint (n : Int)
  | vstr (s : String)
  | vbool (b : Bool)
  | vblob (mimetype : String) (data : String)
deriving DecidableEq, Repr

/-- Key lookup in a JS-object-as-map (returns `none` when the key is absent). -/
def lookupStr {α : Type} (k : String) : List (String × α) → Option α
  | [] => none
  | (k2, v) :: rest => if k2 = k then some v else lookupStr k rest

/-- JS property write `m[k] = v`: updates the entry in place when the key is
present (keeping its position, as JS objects do), otherwise appends it. -/
def setKey {α : Type} (m : List (String × α)) (k : String) (v : α) : List (String × α) :=
  if m.any (fun p => p.1 = k) then
    m.map (fun p => if p.1 = k then (k, v) else p)
  else
    m ++ [(k, v)]

/-- `Object.assign(dst, src)`: writes every key of `src` into `dst` in order. -/
def objAssign (dst src : List (String × HVal)) : List (String × HVal) :=
  src.foldl (fun acc p => setKey acc p.1 p.2) dst

/-! ## The scope chain: `DataEnvironment` -/

/-- The `eventBoundary` classification of a scope (`"soft" | "hard"`;
the field is `null` for a non-boundary scope, modelled with `Option`). -/
inductive Boundary where
  | soft
  | hard
deriving DecidableEq, Repr

/-- One scope of the chain: the fields of class `DataEnvironment` that the
verified claims read.  `handlers` maps an event name to the handler's source
text (`HandlerValType.handlerStr`); the `node` attribution inside
`HandlerValType` and the `componentRoot`/`description` metadata are elided
as purely diagnostic. -/
structure EnvFrame where
  data : HVal := .vnull
  specials : List (String × HVal) := []
  handlers : List (String × String) := []
  onlySpecials : Bool := false
  eventBoundary : Option Boundary := none
  htmlContext : Option String := none
deriving DecidableEq, Repr

/-- A `DataEnvironment` with its parent chain: current scope first, root
last.  `[]` models a null environment reference. -/
abbrev DataEnvironment : Type := List EnvFrame

/-- `DataEnvironment.getContextStack`: the `specials` of every scope from the
current one to the root, nearest first. -/
def getContextStack (env : DataEnvironment) : List (List (String × HVal)) :=
  env.map (fun f => f.specials)

/-- `DataEnvironment.getLocalStack`: the `data` of every scope from the
current one to the root, nearest first, skipping `onlySpecials` scopes. -/
def getLocalStack (env : DataEnvironment) : List HVal :=
  (env.filter (fun f => !f.onlySpecials)).map (fun f => f.data)

/-- `DataEnvironment.getSquashedContext`: `rtn = {}`, then
`Object.assign(rtn, stack[i])` for `i` from the root end of the context
stack down to the current scope, so nearer definitions win. -/
def getSquashedContext (env : DataEnvironment) : List (String × HVal) :=
  (getContextStack env).reverse.foldl objAssign []

/-- `DataEnvironment.getContextKey`: returns `specials[contextkey]` if the
key is defined in the current scope, otherwise recurses into the parent;
`null` when no ancestor defines the key. -/
def getContextKey (contextkey : String) : DataEnvironment → HVal
  | [] => .vnull
  | f :: rest =>
    match lookupStr contextkey f.specials with
    | some v => v
    | none => getContextKey contextkey rest

/-- Options record for child-environment construction (the fields of
`DataEnvironmentOpts` the claims touch; the constructor keeps
`opts.eventBoundary` only when it is `"soft"` or `"hard"`, which the
`Option Boundary` type already enforces). -/
structure DataEnvironmentOpts where
  handlers : List (String × String) := []
  htmlContext : Option String := none
  eventBoundary : Option Boundary := none
deriving DecidableEq, Repr

/-- `DataEnvironment.makeChildEnv`: a new scope whose parent is `env`,
carrying a copy of the supplied `specials` (copying is implicit: the
embedding is pure). -/
def makeChildEnv (env : DataEnvironment) (data : HVal)
    (specials : List (String × HVal)) (opts : DataEnvironmentOpts) : DataEnvironment :=
  { data := data, specials := specials, handlers := opts.handlers,
    onlySpecials := false, eventBoundary := opts.eventBoundary,
    htmlContext := opts.htmlContext } :: env

/-- `DataEnvironment.makeSpecialChildEnv`: `makeChildEnv(this.data, specials,
opts)` with `onlySpecials` set. -/
def makeSpecialChildEnv (env : DataEnvironment)
    (specials : List (String × HVal)) (opts : DataEnvironmentOpts) : DataEnvironment :=
  let d := match env with
    | [] => HVal.vnull
    | f :: _ => f.data
  { data := d, specials := specials, handlers := opts.handlers,
    onlySpecials := true, eventBoundary := opts.eventBoundary,
    htmlContext := opts.htmlContext } :: env

/-! ## Event dispatch: `getEventBoundary` and `fireEvent` -/

/-- `eventBubbles` (src/src/state.ts:1148): the fixed exemption list —
`"load"` and `"x"`-prefixed event names are declared non-bubbling.
Note: this function is defined in state.ts but is not consulted anywhere
inside it; `fireEvent` reads only the event's own `bubble` flag. -/
def eventBubbles (event : String) : Bool :=
  if event = "load" then false
  -- `event.startsWith("x")`: the first character is `'x'`
  else if event.data.head? = some 'x' then false
  else true

/-- An `EventType` record as consumed by `fireEvent`: the event name, the
bubble flag, and the data context bound as `specials` of the handler's
child scope. -/
structure EventType where
  event : String
  bubble : Bool
  datacontext : List (String × HVal) := []
deriving DecidableEq, Repr

/-- `DataEnvironment.getEventBoundary`: walk from the current scope to the
root; a hard boundary always stops the walk, a soft boundary stops it only
when the event is the wildcard `"*"` or the scope's `handlers` define the
event.  Returns the qualifying scope (with its own parent chain), or `none`
when the root is passed with no match.  The `event` argument is the
possibly-null string of the source, hence `Option String`. -/
def getEventBoundary (event : Option String) : DataEnvironment → Option DataEnvironment
  | [] => none
  | f :: rest =>
    if f.eventBoundary = some .hard then some (f :: rest)
    else if event ≠ none ∧ f.eventBoundary = some .soft ∧
        (event = some "*" ∨ (lookupStr ((event.getD "")) f.handlers).isSome) then
      some (f :: rest)
    else getEventBoundary event rest

/-- Whether a handler block was started on the throwing path
(`ExecuteBlockPThrow`) or the error-catching path (`ExecuteBlockP`). -/
inductive ExecMode where
  | throwing
  | catching
deriving DecidableEq, Repr

/-- The observable outcome of one `fireEvent` dispatch:
* `unhandled` — no boundary scope exists, `dbstate.unhandledEvent` is called;
* `noop` — a boundary was found but lacks the handler and the event does
  not bubble past it (or the boundary has no parent); `fireEvent` returns
  a bare `null` without reporting anything;
* `ran` — the handler source `handlerStr` is parsed and executed in the
  child scope `eventEnv`, in mode `mode`. -/
inductive FireResult where
  | unhandled
  | noop
  | ran (handlerStr : String) (eventEnv : DataEnvironment) (mode : ExecMode)
deriving DecidableEq, Repr

/-- `DataEnvironment.fireEvent` (src/src/state.ts:1394).  Resolves the
boundary for the event name; if none, reports the event unhandled.  If the
boundary lacks a handler for the exact name, returns a no-op unless the
event bubbles and a parent exists, in which case it recurses from the
boundary's parent — passing no third argument, so the recursive call runs
with `throwErrors` falsy.  Otherwise it builds the special child scope for
the event's data context and executes the parsed handler block, throwing or
catching according to `throwErrors`. -/
def fireEvent (ev : EventType) (throwErrors : Bool) (env : DataEnvironment) : FireResult :=
  match h : getEventBoundary (some ev.event) env with
  | none => .unhandled
  | some [] => .unhandled  -- unreachable: `getEventBoundary_ne_nil`
  | some (f :: rest) =>
    match lookupStr ev.event f.handlers with
    | none =>
      if !ev.bubble ∨ rest = [] then .noop
      else fireEvent ev false rest
    | some hstr =>
      let htmlContext := "event" ++ (if ev.bubble then "-bubble" else "") ++ "(" ++ ev.event ++ ")"
      let eventEnv := makeSpecialChildEnv (f :: rest) ev.datacontext { htmlContext := some htmlContext }
      .ran hstr eventEnv (if throwErrors then .throwing else .catching)
termination_by env.length
decreasing_by
  have hle : ∀ (e : Option String) (env2 benv : List EnvFrame),
      getEventBoundary e env2 = some benv → benv.length ≤ env2.length := by
    intro e env2
    induction env2 with
    | nil => intro benv hb; simp [getEventBoundary] at hb
    | cons g rest2 ih =>
      intro benv hb
      simp only [getEventBoundary] at hb
      split at hb
      · cases hb; exact le_refl _
      · split at hb
        · cases hb; exact le_refl _
        · exact Nat.le_succ_of_le (ih benv hb)
  have hle2 := hle (some ev.event) env (f :: rest) h
  simp only [List.length_cons] at hle2
  omega

/-! ## The action processing pipeline: `HibikiState.processActions` -/

/-- A `HibikiAction` record as read by `processActions`: `rr.type`,
`rr.selector`, `rr.path`, `rr.data`, and the blob payload fields consumed
by `BlobFromRRA`/`ExtBlobFromRRA`.  Absent JS fields are `none`. -/
structure HibikiAction where
  type : String
  selector : Option String := none
  path : Option String := none
  data : HVal := .vnull
  blobmimetype : String := ""
  blobbase64 : String := ""
deriving DecidableEq, Repr

/-- `rr.selector ?? rr.path`. -/
def jsSelector (rr : HibikiAction) : Option String :=
  match rr.selector with
  | some s => some s
  | none => rr.path

/-- Modelled from the spec: `DataCtx.BlobFromRRA` (datactx.ts, not under
src/) constructs a new binary value from a `blob` action's payload. -/
def BlobFromRRA (rr : HibikiAction) : HVal :=
  .vblob rr.blobmimetype rr.blobbase64

/-- Modelled from the spec: `DataCtx.ExtBlobFromRRA` (datactx.ts, not under
src/) appends a `blobext` action's payload to an existing binary value. -/
def ExtBlobFromRRA (mimetype bdata : String) (rr : HibikiAction) : HVal :=
  .vblob mimetype (bdata ++ rr.blobbase64)

/-- The state read and written by the pipeline: the root data tree (the
target of direct state writes) and the invalidation registry
`DataNodeStates`, a map from an opaque uuid to the registered query string
(the refresh callback itself is external to the state; its invocations are
returned as `RefreshEvent`s). -/
structure PAState where
  data : List (String × HVal) := []
  dataNodeStates : List (String × String) := []
deriving DecidableEq, Repr

/-- One invocation of a registered refresh callback: which registration
fired and the full root data tree at the moment of the call — everything
the callback can observe of the pipeline's state when it executes. -/
structure RefreshEvent where
  uuid : String
  query : String
  dataSnapshot : List (String × HVal)
deriving DecidableEq, Repr

/-- Substring occurrence over character lists: `pat` occurs somewhere
inside the second list (the empty pattern occurs everywhere). -/
def containsSub (pat : List Char) : List Char → Bool
  | [] => decide (pat = [])
  | c :: rest => pat.isPrefixOf (c :: rest) || containsSub pat rest

/-- Modelled from the spec: JS `query.match(new RegExp(pattern))` for a
pattern that contains no regex metacharacters (the only form the verified
claims exercise) tests whether `pattern` occurs in `query` as a substring;
an absent or empty pattern matches every string. -/
def regexTestLit (pattern : Option String) (query : String) : Bool :=
  match pattern with
  | none => true
  | some p => p = "" || containsSub p.data query.data

/-- `HibikiState.invalidateRegex` (src/src/state.ts:2186): invoke
`forceRefresh` on every `DataNodeStates` entry whose query matches the
pattern, in registration order. -/
def invalidateRegex (pattern : Option String) (st : PAState) : List RefreshEvent :=
  (st.dataNodeStates.filter (fun p => regexTestLit pattern p.2)).map
    (fun p => { uuid := p.1, query := p.2, dataSnapshot := st.data })

/-- Modelled from the spec: `DataCtx.ApplySingleRRA` (datactx.ts, not under
src/) applies one action as a direct state write against the root scope —
`setdata` writes the payload at the selector path, `blob` writes a newly
constructed binary value there, `blobext` appends to the binary value
already stored there; any other action kind performs no direct data-tree
write here (`invalidate`/`html` are handled by the pipeline itself, and a
malformed action is logged and skipped). -/
def ApplySingleRRA (st : PAState) (rr : HibikiAction) : PAState :=
  match jsSelector rr with
  | none => st
  | some sel =>
    if rr.type = "setdata" then
      { st with data := setKey st.data sel rr.data }
    else if rr.type = "blob" then
      { st with data := setKey st.data sel (BlobFromRRA rr) }
    else if rr.type = "blobext" then
      match lookupStr sel st.data with
      | some (.vblob mt bd) => { st with data := setKey st.data sel (ExtBlobFromRRA mt bd rr) }
      | _ => st
    else st

/-- The loop body of `HibikiState.processActions` (src/src/state.ts:2056),
iterating the action list in order while threading the `rtnval`
accumulator, the state, and the list of refresh-callback invocations made
so far.  The `html` action's `parseHtml`/`HtmlObj` swap touches only the
node tree, which no verified claim observes, so it contributes no state
change here beyond the unconditional `ApplySingleRRA` call that follows
it in the source. -/
def processActionsLoop (pureRequest : Bool) :
    List HibikiAction → HVal → PAState → List RefreshEvent →
      HVal × PAState × List RefreshEvent
  | [], rtnval, st, log => (rtnval, st, log)
  | rr :: rest, rtnval, st, log =>
    let selector := jsSelector rr
    if rr.type = "setdata" ∧ selector = some "@rtn" then
      processActionsLoop pureRequest rest rr.data st log
    else if rr.type = "blob" ∧ selector = some "@rtn" then
      processActionsLoop pureRequest rest (BlobFromRRA rr) st log
    else if rr.type = "blobext" ∧ selector = some "@rtn" then
      match rtnval with
      | .vblob mt bd => processActionsLoop pureRequest rest (ExtBlobFromRRA mt bd rr) st log
      | _ =>
        -- "Bad blobext:@rtn, no HibikiBlob to extend" is logged; continue
        processActionsLoop pureRequest rest rtnval st log
    else if pureRequest then
      processActionsLoop pureRequest rest rtnval st log
    else
      let log := if rr.type = "invalidate" then log ++ invalidateRegex selector st else log
      processActionsLoop pureRequest rest rtnval (ApplySingleRRA st rr) log

/-- `HibikiState.processActions(rra, pureRequest)`: one pass over the
batch; returns the captured return value, the final state, and the refresh
invocations, in order. -/
def processActions (rra : List HibikiAction) (pureRequest : Bool) (st : PAState) :
    HVal × PAState × List RefreshEvent :=
  processActionsLoop pureRequest rra .vnull st []

/-! ## The handler gateway: `parseHandler` and module resolution -/

/-- The `HandlerPathObj` record returned by `parseHandler`: namespace,
path, path fragment — each substituted with its default (`""`, `"/"`,
`""`) when the corresponding capture group did not participate. -/
structure HandlerPathObj where
  ns : String
  path : String
  pathfrag : String
deriving DecidableEq, Repr

/-- First character of the namespace group: `[a-zA-Z_]`. -/
def isNsStart (c : Char) : Bool := c.isAlpha || c = '_'

/-- Later characters of the namespace group: `[a-zA-Z0-9_]`. -/
def isNsChar (c : Char) : Bool := c.isAlphanum || c = '_'

/-- Characters of the path group: `[-a-zA-Z0-9._/]`. -/
def isPathChar (c : Char) : Bool :=
  c.isAlphanum || c = '.' || c = '_' || c = '/' || c = '-'

/-- Later characters of the fragment group: `[a-zA-Z0-9_-]`. -/
def isFragChar (c : Char) : Bool := c.isAlphanum || c = '_' || c = '-'

/-- The fragment group `@?[a-zA-Z][a-zA-Z0-9_-]*`, matched against the whole
remaining input (the capture includes the optional `@`). -/
def matchFrag (cs : List Char) : Option String :=
  match cs with
  | '@' :: c :: rest =>
    if c.isAlpha && rest.all isFragChar then some (String.mk ('@' :: c :: rest)) else none
  | c :: rest =>
    if c.isAlpha && rest.all isFragChar then some (String.mk (c :: rest)) else none
  | [] => none

/-- The anchored regex of `parseHandler`,
`^(?:/@([a-zA-Z_][a-zA-Z0-9_]*))?(/[-a-zA-Z0-9._/]*)?(?:[:](@?[a-zA-Z][a-zA-Z0-9_-]*))?$`,
as a deterministic matcher (no character class of a group contains the
character that starts the next group, so the greedy match never needs to
backtrack).  Returns the three capture groups. -/
def parseHandlerMatch (cs : List Char) :
    Option (Option String × Option String × Option String) :=
  -- group 1: `(?:/@(name))?`
  let g1 : Option String × List Char :=
    match cs with
    | '/' :: '@' :: c :: rest =>
      if isNsStart c then
        let sp := rest.span isNsChar
        (some (String.mk (c :: sp.1)), sp.2)
      else (none, cs)
    | _ => (none, cs)
  -- group 2: `(/[-a-zA-Z0-9._/]*)?` — `/` is itself in the class
  let g2 : Option String × List Char :=
    match g1.2 with
    | '/' :: _ =>
      let sp := g1.2.span isPathChar
      (some (String.mk sp.1), sp.2)
    | _ => (none, g1.2)
  -- group 3: `(?:[:](frag))?$`
  match g2.2 with
  | [] => some (g1.1, g2.1, none)
  | ':' :: rest3 =>
    match matchFrag rest3 with
    | some f => some (g1.1, g2.1, some f)
    | none => none
  | _ => none

/-- `parseHandler` (src/src/state.ts:2399): `null` for a null/empty path or
one not starting with `/`; otherwise matches the handler-path regex and
substitutes `""`, `"/"`, `""` for absent groups. -/
def parseHandler (handlerPath : String) : Option HandlerPathObj :=
  match handlerPath.data with
  | [] => none
  | c :: _ =>
    if c ≠ '/' then none
    else
      match parseHandlerMatch handlerPath.data with
      | none => none
      | some (ns, path, frag) =>
        some { ns := ns.getD "", path := path.getD "/", pathfrag := frag.getD "" }

/-- The synchronous resolution phase of
`HibikiState.callHandlerInternalAsync` (src/src/state.ts:2099), up to the
point where the module's own `callHandler` is awaited: validates the path,
parses it, resolves the module name against the registered `Modules` keys,
and either fails or dispatches the request. -/
inductive HandlerResolution where
  | invalidPathErr
  | moduleNotFoundErr (moduleName : String)
  | dispatch (moduleName : String) (path : String) (pathfrag : String) (pureRequest : Bool)
deriving DecidableEq, Repr

/-- `callHandlerInternalAsync(handlerPath, handlerData, pureRequest)` —
the module-resolution prefix.  `modules` is the key set of
`HibikiState.Modules` (the constructor registers exactly `"fetch"`). -/
def callHandlerInternalAsync (modules : List String) (handlerPath : Option String)
    (pureRequest : Bool) : HandlerResolution :=
  match handlerPath with
  | none => .invalidPathErr
  | some hp =>
    if hp = "" then .invalidPathErr
    else
      match parseHandler hp with
      | none => .invalidPathErr
      | some hpath =>
        -- source: `let moduleName = hpath.ns ?? "default";` — `hpath.ns` is
        -- always a string (`parseHandler` substitutes `""` for a missing
        -- namespace group), so the `?? "default"` fallback can never apply
        let moduleName := hpath.ns
        if modules.contains moduleName then
          .dispatch moduleName hpath.path hpath.pathfrag pureRequest
        else .moduleNotFoundErr moduleName

/-! ## The fetch module: method validation -/

namespace FetchModule

/-- `VALID_METHODS` (src/src/state.ts:1146). -/
def VALID_METHODS : List String := ["GET", "POST", "PUT", "PATCH", "DELETE"]

/-- JS `String.toUpperCase` on the ASCII strings the claims exercise
(character-wise `Char.toUpper`). -/
def toUpperCase (s : String) : String := String.mk (s.data.map Char.toUpper)

/-- Outcome of the method-validation prefix of `FetchModule.callHandler`. -/
inductive MethodCheck where
  | ok (method : String)
  | invalidNullMethod
  | invalidMethod (method : String)
deriving DecidableEq, Repr

/-- The method validation at the top of `FetchModule.callHandler`
(src/src/state.ts:1653): take `req.path.pathfrag`, throw on `null`,
uppercase it, and throw `Invalid method passed to /@fetch:[method]`
unless `VALID_METHODS[method]` is set. -/
def callHandlerMethodCheck (pathfrag : Option String) : MethodCheck :=
  match pathfrag with
  | none => .invalidNullMethod
  | some m =>
    let m := toUpperCase m
    if VALID_METHODS.contains m then .ok m else .invalidMethod m

end FetchModule

/-! ## `DataEnvironment.resolveRoot` -/

/-- Which root a successful `resolveRoot` resolved to.  The claims settled
here concern only the error conditions, so the resolved values themselves
(mobx boxes, the local-data stack entry, the context proxy) are abstracted
to the branch taken. -/
inductive RootValue where
  | globalRoot
  | stateRoot
  | localRoot
  | nullRoot
  | nodedataRoot
  | contextProxyRoot
  | currentcontextRoot
  | localstackRoot
  | contextstackRoot
  | componentRoot
  | dataRoot (name : String)
deriving DecidableEq, Repr

/-- The outcome of `resolveRoot`: the thrown
`"Invalid caret value, must be 0 or 1"`, the thrown `"Invalid root path"`,
or a resolved root. -/
inductive RootResult where
  | invalidCaretThrow
  | invalidRootThrow
  | resolved (v : RootValue)
deriving DecidableEq, Repr

/-- The caret guard of `resolveRoot`:
`if (opts.caret != null && opts.caret < 0 || opts.caret > 1) throw ...`.
By JS precedence this is `(caret != null && caret < 0) || (caret > 1)`;
for an absent caret, `undefined > 1` is false.  The caret is a JS number,
embedded as `ℚ`. -/
def caretGuardThrows : Option ℚ → Bool
  | none => false
  | some c => decide (c < 0) || decide (1 < c)

/-- `DataEnvironment.resolveRoot(rootName, opts)` (src/src/state.ts:1244):
the caret guard, then the string dispatch over the well-known root names,
then the dynamic `DataRoots` lookup (`dataRoots` is the key set of
`HibikiState.DataRoots`), and finally the `"Invalid root path"` throw. -/
def resolveRoot (rootName : String) (caret : Option ℚ) (dataRoots : List String) : RootResult :=
  if caretGuardThrows caret then .invalidCaretThrow
  else if rootName = "global" ∨ rootName = "data" then .resolved .globalRoot
  else if rootName = "state" then .resolved .stateRoot
  else if rootName = "local" then .resolved .localRoot
  else if rootName = "null" then .resolved .nullRoot
  else if rootName = "nodedata" then .resolved .nodedataRoot
  else if rootName = "context" then .resolved .contextProxyRoot
  else if rootName = "currentcontext" then .resolved .currentcontextRoot
  else if rootName = "localstack" then .resolved .localstackRoot
  else if rootName = "contextstack" then .resolved .contextstackRoot
  else if rootName = "c" ∨ rootName = "component" then .resolved .componentRoot
  else if dataRoots.contains rootName then .resolved (.dataRoot rootName)
  else .invalidRootThrow

/-- The well-known root names handled by named branches of `resolveRoot`. -/
def wellKnownRoots : List String :=
  ["global", "data", "state", "local", "null", "nodedata", "context",
   "currentcontext", "localstack", "contextstack", "c", "component"]

/-! ## Initialization callbacks -/

/-- The initialization-callback state of `HibikiState`: the `Initialized`
flag and the `InitCallbacks` queue.  Callbacks are opaque functions,
identified here by a number; "running" a callback is recorded by returning
its id in a run list. -/
structure InitState where
  initialized : Bool := false
  initCallbacks : List Nat := []
deriving DecidableEq, Repr

/-- `HibikiState.setInitCallback(fn)` (src/src/state.ts:1815): run `fn`
immediately when already initialized, otherwise queue it.  Returns the new
state and the ids run synchronously during this call. -/
def setInitCallback (st : InitState) (fn : Nat) : InitState × List Nat :=
  if st.initialized then (st, [fn])
  else ({ st with initCallbacks := st.initCallbacks ++ [fn] }, [])

/-- `HibikiState.setInitialized()` (src/src/state.ts:1824): set the flag and
run every queued callback in order (each wrapped in try/catch, so a failing
callback is logged and does not stop the loop — hence every queued id is
run exactly once during the sweep).  The queue is not cleared. -/
def setInitialized (st : InitState) : InitState × List Nat :=
  ({ st with initialized := true }, st.initCallbacks)

/-! ## Concrete fixtures used by the claims -/

/-- Scope A of the C6 chain (the root): specials `{x:1, y:2}`. -/
def frameA : EnvFrame := { specials := [("x", .vint 1), ("y", .vint 2)] }

/-- Scope B of the C6 chain: no specials. -/
def frameB : EnvFrame := {}

/-- Scope C of the C6 chain (the leaf): specials `{x:3}`. -/
def frameC : EnvFrame := { specials := [("x", .vint 3)] }

/-- The C6 chain seen from B: parent chain `B → A`. -/
def c6envB : DataEnvironment := [frameB, frameA]

/-- The C6 chain seen from C: parent chain `C → B → A`. -/
def c6envC : DataEnvironment := [frameC, frameB, frameA]

/-! ### C5: boundary resolution over root(hard) → mid(soft) → leaf -/

/-- C5 root scope: a hard event boundary with no handlers. -/
def c5root : EnvFrame := { eventBoundary := some .hard }

/-- C5 mid scope: a soft event boundary declaring a `"click"` handler. -/
def c5mid : EnvFrame :=
  { eventBoundary := some .soft, handlers := [("click", "mid-click-src")] }

/-- C5 leaf scope: no boundary, no handlers. -/
def c5leaf : EnvFrame := {}

/-- The C5 chain seen from the leaf. -/
def c5env : DataEnvironment := [c5leaf, c5mid, c5root]

/-- C10 inner scope: a hard boundary with no handlers. -/
def c10inner : EnvFrame := { eventBoundary := some .hard }

/-- C10 outer scope: a hard boundary declaring a handler for `"ev"`. -/
def c10outer : EnvFrame :=
  { eventBoundary := some .hard, handlers := [("ev", "outer-src")] }

/-- The C10 chain: inner boundary over outer boundary. -/
def c10env : DataEnvironment := [c10inner, c10outer]

/-- C8 inner scope: a hard boundary that does not claim `"load"`. -/
def c8inner : EnvFrame := { eventBoundary := some .hard }

/-- C8 outer scope: a hard boundary declaring a `"load"` handler. -/
def c8outer : EnvFrame :=
  { eventBoundary := some .hard, handlers := [("load", "outer-load-src")] }

/-- The C8 chain: inner boundary over outer boundary. -/
def c8env : DataEnvironment := [c8inner, c8outer]

/-! ### C1 / C4: the action batch fixtures -/

/-- The C1 batch: assign `a := 1`, invalidate `q`, assign `a := 2`. -/
def c1batch : List HibikiAction :=
  [{ type := "setdata", selector := some "a", data := .vint 1 },
   { type := "invalidate", selector := some "q" },
   { type := "setdata", selector := some "a", data := .vint 2 }]

/-- The C1 starting state: empty data tree, one query registered
against `"q"`. -/
def c1st0 : PAState := { data := [], dataNodeStates := [("u1", "q")] }

/-- The C4 batch: capture `5` as the return value, then invalidate `q`. -/
def c4batch : List HibikiAction :=
  [{ type := "setdata", selector := some "@rtn", data := .vint 5 },
   { type := "invalidate", selector := some "q" }]

/-- The C4 starting state: some data and one query registered
against `"q"`. -/
def c4st0 : PAState := { data := [("a", HVal.vint 7)], dataNodeStates := [("u1", "q")] }

/-! ## Theorems: lemmas about the embedding and the settled claims -/

theorem getEventBoundary_length_le (event : Option String) :
    ∀ (env benv : DataEnvironment), getEventBoundary event env = some benv →
      benv.length ≤ env.length := by
  intro env
  induction env with
  | nil => intro benv h; simp [getEventBoundary] at h
  | cons f rest ih =>
    intro benv h
    simp only [getEventBoundary] at h
    split at h
    · cases h; exact le_refl _
    · split at h
      · cases h; exact le_refl _
      · exact Nat.le_succ_of_le (ih benv h)

theorem getEventBoundary_ne_nil (event : Option String) (env : DataEnvironment) :
    getEventBoundary event env ≠ some [] := by
  induction env with
  | nil => simp [getEventBoundary]
  | cons f rest ih =>
    simp only [getEventBoundary]
    split
    · simp
    · split
      · simp
      · exact ih

/-! ### Unfolding lemmas for `fireEvent` (it recurses through the boundary
walk, so it is defined by well-founded recursion and does not reduce by
evaluation; these four lemmas are its defining equations, one per path). -/

theorem fireEvent_unhandled {ev : EventType} {tE : Bool} {env : DataEnvironment}
    (hb : getEventBoundary (some ev.event) env = none) :
    fireEvent ev tE env = .unhandled := by
  rw [fireEvent.eq_def]
  split <;> simp_all

theorem fireEvent_ran {ev : EventType} {tE : Bool} {env : DataEnvironment}
    {f : EnvFrame} {rest : DataEnvironment} {hstr : String}
    (hb : getEventBoundary (some ev.event) env = some (f :: rest))
    (hh : lookupStr ev.event f.handlers = some hstr) :
    fireEvent ev tE env =
      .ran hstr
        (makeSpecialChildEnv (f :: rest) ev.datacontext
          { htmlContext := some ("event" ++ (if ev.bubble then "-bubble" else "") ++
              "(" ++ ev.event ++ ")") })
        (if tE then .throwing else .catching) := by
  rw [fireEvent.eq_def]
  split
  · simp_all
  · simp_all
  · rename_i f2 rest2 heq
    rw [hb] at heq
    injection heq with h1
    injection h1 with hf hr
    subst hf; subst hr
    rw [hh]

theorem fireEvent_noop {ev : EventType} {tE : Bool} {env : DataEnvironment}
    {f : EnvFrame} {rest : DataEnvironment}
    (hb : getEventBoundary (some ev.event) env = some (f :: rest))
    (hh : lookupStr ev.event f.handlers = none)
    (hstop : ev.bubble = false ∨ rest = []) :
    fireEvent ev tE env = .noop := by
  rw [fireEvent.eq_def]
  split
  · simp_all
  · simp_all
  · rename_i f2 rest2 heq
    rw [hb] at heq
    injection heq with h1
    injection h1 with hf hr
    subst hf; subst hr
    rw [hh]
    rcases hstop with h1 | h1 <;> simp [h1]

theorem fireEvent_bubble {ev : EventType} {tE : Bool} {env : DataEnvironment}
    {f : EnvFrame} {rest : DataEnvironment}
    (hb : getEventBoundary (some ev.event) env = some (f :: rest))
    (hh : lookupStr ev.event f.handlers = none)
    (hbub : ev.bubble = true) (hrest : rest ≠ []) :
    fireEvent ev tE env = fireEvent ev false rest := by
  rw [fireEvent.eq_def]
  split
  · simp_all
  · simp_all
  · rename_i f2 rest2 heq
    rw [hb] at heq
    injection heq with h1
    injection h1 with hf hr
    subst hf; subst hr
    rw [hh]
    simp [hbub, hrest]

/-- C6: over the chain A→B→C with specials A={x:1,y:2}, B={}, C={x:3},
`getSquashedContext()` on C yields exactly the flat mapping {x:3, y:2}
(ancestors applied root to leaf, leaf definitions win), while the shadow
lookup `getContextKey("x")` returns 3 from C and 1 from B, and a key no
ancestor defines comes back null. -/
theorem c6_squash_vs_shadow :
    getSquashedContext c6envC = [("x", .vint 3), ("y", .vint 2)] ∧
    lookupStr "x" (getSquashedContext c6envC) = some (.vint 3) ∧
    lookupStr "y" (getSquashedContext c6envC) = some (.vint 2) ∧
    getContextKey "x" c6envC = .vint 3 ∧
    getContextKey "x" c6envB = .vint 1 ∧
    getContextKey "z" c6envC = .vnull := by
  refine ⟨?_, ?_, ?_, ?_, ?_, ?_⟩ <;> decide

/-- C1 counterexample: running the batch
`[assign(a,1), invalidate(q), assign(a,2)]` (not capture-only), every
refresh callback invoked during the `invalidate` action observes `a == 1`,
not `a == 2` — the later assign has not been applied yet when the callback
runs.  This refutes "at the moment that refresh callback executes it
observes a == 2 (not 1)". -/
theorem c1_counterexample :
    (processActions c1batch false c1st0).2.2.map
      (fun e => lookupStr "a" e.dataSnapshot) = [some (HVal.vint 1)] ∧
    some (HVal.vint 1) ≠ some (HVal.vint 2) := by
  exact ⟨by decide, by decide⟩

/-- C1 amended: actions are applied strictly in list order; the refresh
callback of the (only) registered query matching `q` is invoked exactly
once, during the `invalidate` action, and at that moment it observes
`a == 1` — the effect of the earlier assign, with the later assign not yet
applied; after the whole batch the tree holds `a == 2`. -/
theorem c1_invalidate_in_list_order :
    processActions c1batch false c1st0 =
      (HVal.vnull,
       { data := [("a", HVal.vint 2)], dataNodeStates := [("u1", "q")] },
       [{ uuid := "u1", query := "q", dataSnapshot := [("a", HVal.vint 1)] }]) ∧
    lookupStr "a" [("a", HVal.vint 1)] = some (HVal.vint 1) ∧
    lookupStr "a" (processActions c1batch false c1st0).2.1.data = some (HVal.vint 2) := by
  refine ⟨by decide, by decide, by decide⟩

/-- In capture-only (pure) mode the loop never touches the state and never
invokes a refresh callback: every branch other than the reserved
`"@rtn"`-selector ones is skipped. -/
theorem processActionsLoop_pure (rra : List HibikiAction) :
    ∀ (rtnval : HVal) (st : PAState) (log : List RefreshEvent),
      (processActionsLoop true rra rtnval st log).2.1 = st ∧
      (processActionsLoop true rra rtnval st log).2.2 = log := by
  induction rra with
  | nil => intro rtnval st log; exact ⟨rfl, rfl⟩
  | cons rr rest ih =>
    intro rtnval st log
    simp only [processActionsLoop]
    split_ifs with h1 h2 h3
    · exact ih _ _ _
    · exact ih _ _ _
    · cases rtnval <;> exact ih _ _ _
    · exact ih _ _ _

/-- C4: processing `[setdata(selector="@rtn", data=5), invalidate(q)]` with
the capture-only flag returns `5`, leaves the state untouched, and invokes
no refresh callback; and in general a capture-only pass skips every action
other than the reserved `"@rtn"`-selector ones, performing no state write
and no invalidation whatsoever. -/
theorem c4_capture_only :
    processActions c4batch true c4st0 = (HVal.vint 5, c4st0, []) ∧
    ∀ (rra : List HibikiAction) (st : PAState),
      (processActions rra true st).2.1 = st ∧ (processActions rra true st).2.2 = [] := by
  exact ⟨by decide, fun rra st => processActionsLoop_pure rra .vnull st []⟩

/-! ### C2: fetch-module method validation -/

/-- C2 counterexample: the fetch module rejects method `"head"` — the
normalization yields `"HEAD"`, which is **not** in `VALID_METHODS`
(`GET/POST/PUT/PATCH/DELETE`), so the call throws *InvalidMethod* even
though HEAD is a standard HTTP verb.  This refutes "accepted if and only
if it is a standard HTTP verb: in particular method \"head\" ... succeeds
the method check". -/
theorem c2_counterexample :
    FetchModule.callHandlerMethodCheck (some "head") =
      FetchModule.MethodCheck.invalidMethod "HEAD" := by
  decide

/-- C2 amended: the method from the path fragment is normalized to
uppercase and accepted iff the normalized form is one of
`GET/POST/PUT/PATCH/DELETE` (`VALID_METHODS`); both `"head"` (in any
letter case, normalized to `"HEAD"`) and `"TRACE"` fail the check with an
*InvalidMethod* error. -/
theorem c2_method_validation :
    FetchModule.callHandlerMethodCheck (some "head") =
      FetchModule.MethodCheck.invalidMethod "HEAD" ∧
    FetchModule.callHandlerMethodCheck (some "Head") =
      FetchModule.MethodCheck.invalidMethod "HEAD" ∧
    FetchModule.callHandlerMethodCheck (some "TRACE") =
      FetchModule.MethodCheck.invalidMethod "TRACE" ∧
    FetchModule.callHandlerMethodCheck (some "get") = FetchModule.MethodCheck.ok "GET" ∧
    FetchModule.callHandlerMethodCheck (some "Post") = FetchModule.MethodCheck.ok "POST" ∧
    (∀ m : String,
      FetchModule.callHandlerMethodCheck (some m) =
          FetchModule.MethodCheck.ok (FetchModule.toUpperCase m) ↔
        FetchModule.VALID_METHODS.contains (FetchModule.toUpperCase m) = true) := by
  refine ⟨by decide, by decide, by decide, by decide, by decide, ?_⟩
  intro m
  simp only [FetchModule.callHandlerMethodCheck]
  split_ifs with hc <;> simp_all

/-! ### C3: the default handler namespace -/

/-- C3: a well-formed handler path with no `/@namespace` part parses with
`ns = ""` (not null), so `hpath.ns ?? "default"` keeps `""` and the module
lookup searches for a module named `""` — it fails with *ModuleNotFound*
even when a module named `"default"` is registered.  (The claim — and the
`?? "default"` fallback the source itself contains — expect resolution
under `"default"`; the fallback is dead because `parseHandler` substitutes
`""` for an absent namespace group.)  The last conjunct checks the
spec's own positive parsing example. -/
theorem c3_default_namespace_not_used :
    parseHandler "/users" = some { ns := "", path := "/users", pathfrag := "" } ∧
    callHandlerInternalAsync ["fetch", "default"] (some "/users") false =
      .moduleNotFoundErr "" ∧
    ("" : String) ≠ "default" ∧
    parseHandler "/@fetch/users:GET" =
      some { ns := "fetch", path := "/users", pathfrag := "GET" } := by
  refine ⟨by decide, by decide, by decide, by decide⟩

/-- C5 counterexample: firing `"hover"` from the leaf with `bubble = false`
resolves the boundary to the hard root, which lacks the handler, and
`fireEvent` returns a silent no-op — it does **not** report the event as
unhandled (`dbstate.unhandledEvent` runs only when no boundary scope exists
at all, and the hard root always qualifies).  This refutes the claim's
final clause "resolves to no handler and is reported as an unhandled
event". -/
theorem c5_counterexample :
    fireEvent { event := "hover", bubble := false } false c5env = .noop ∧
    fireEvent { event := "hover", bubble := false } false c5env ≠ .unhandled := by
  have hb : getEventBoundary (some "hover") c5env = some [c5root] := by decide
  have hn : fireEvent { event := "hover", bubble := false } false c5env = .noop :=
    fireEvent_noop hb (by decide) (Or.inl rfl)
  exact ⟨hn, by rw [hn]; decide⟩

/-- C5 amended: firing `"click"` from the leaf resolves the boundary to mid
and runs mid's handler; firing `"hover"` (not in mid's handlers) resolves
past mid to the hard root whether or not it bubbles; and firing `"hover"`
with `bubble = false` ends as a silent no-op at the root — the dispatch is
not reported through the unhandled-event path, which is reserved for a
chain with no boundary at all. -/
theorem c5_boundary_resolution :
    getEventBoundary (some "click") c5env = some [c5mid, c5root] ∧
    fireEvent { event := "click", bubble := false } false c5env =
      .ran "mid-click-src"
        (makeSpecialChildEnv [c5mid, c5root] [] { htmlContext := some "event(click)" })
        .catching ∧
    getEventBoundary (some "hover") c5env = some [c5root] ∧
    fireEvent { event := "hover", bubble := true } false c5env = .noop ∧
    fireEvent { event := "hover", bubble := false } false c5env = .noop ∧
    getEventBoundary (some "hover") [] = none ∧
    fireEvent { event := "hover", bubble := false } false [] = .unhandled := by
  have hbClick : getEventBoundary (some "click") c5env = some [c5mid, c5root] := by decide
  have hbHover : getEventBoundary (some "hover") c5env = some [c5root] := by decide
  refine ⟨hbClick, ?_, hbHover, ?_, ?_, by decide, ?_⟩
  · rw [fireEvent_ran hbClick
      (show lookupStr "click" c5mid.handlers = some "mid-click-src" by decide)]
    decide
  · exact fireEvent_noop hbHover (by decide) (Or.inr rfl)
  · exact fireEvent_noop hbHover (by decide) (Or.inl rfl)
  · exact fireEvent_unhandled (by decide)

/-! ### C7: `resolveRoot` error conditions -/

/-- With the caret guard passed, a root name outside the well-known set
resolves through the final dynamic-roots branch of `resolveRoot`. -/
theorem resolveRoot_notWellKnown (name : String) (caret : Option ℚ) (roots : List String)
    (hg : caretGuardThrows caret = false) (hnm : name ∉ wellKnownRoots) :
    resolveRoot name caret roots =
      (if roots.contains name then .resolved (.dataRoot name) else .invalidRootThrow) := by
  simp only [wellKnownRoots, List.mem_cons, List.not_mem_nil, or_false, not_or] at hnm
  obtain ⟨n1, n2, n3, n4, n5, n6, n7, n8, n9, n10, n11, n12⟩ := hnm
  unfold resolveRoot
  rw [hg, if_neg (by decide), if_neg (not_or.mpr ⟨n1, n2⟩), if_neg n3, if_neg n4,
    if_neg n5, if_neg n6, if_neg n7, if_neg n8, if_neg n9, if_neg n10,
    if_neg (not_or.mpr ⟨n11, n12⟩)]

/-- With the caret guard passed, every well-known root name resolves. -/
theorem resolveRoot_wellKnown_resolved (name : String) (caret : Option ℚ) (roots : List String)
    (hg : caretGuardThrows caret = false) (hnm : name ∈ wellKnownRoots) :
    ∃ v, resolveRoot name caret roots = .resolved v := by
  simp only [wellKnownRoots, List.mem_cons, List.not_mem_nil, or_false] at hnm
  unfold resolveRoot
  rw [hg, if_neg (by decide)]
  rcases hnm with rfl | rfl | rfl | rfl | rfl | rfl | rfl | rfl | rfl | rfl | rfl | rfl <;>
    exact ⟨_, rfl⟩

/-- A call that passes the caret guard never throws *InvalidCaret*. -/
theorem resolveRoot_guard_false {name : String} {caret : Option ℚ} {roots : List String}
    (hg : caretGuardThrows caret = false) :
    resolveRoot name caret roots ≠ .invalidCaretThrow := by
  by_cases hnm : name ∈ wellKnownRoots
  · obtain ⟨v, hv⟩ := resolveRoot_wellKnown_resolved name caret roots hg hnm
    rw [hv]; intro hc; cases hc
  · rw [resolveRoot_notWellKnown name caret roots hg hnm]
    split_ifs <;> (intro hc; cases hc)

/-- C7 counterexample: a caret of `1/2` is outside `{0, 1}`, yet
`resolveRoot` does **not** throw *InvalidCaret* — by JS operator
precedence the guard is `(caret != null && caret < 0) || (caret > 1)`,
which lets every value in `(0, 1)` straight through, and the `"local"`
branch resolves normally.  This refutes "throws the InvalidCaret condition
... for every such caret value, including ... non-integer values strictly
between 0 and 1". -/
theorem c7_counterexample :
    caretGuardThrows (some ((1 : ℚ) / 2)) = false ∧
    resolveRoot "local" (some ((1 : ℚ) / 2)) [] = .resolved .localRoot ∧
    ¬(((1 : ℚ) / 2) = 0 ∨ ((1 : ℚ) / 2) = 1) := by
  have hg : caretGuardThrows (some ((1 : ℚ) / 2)) = false := by
    simp only [caretGuardThrows, Bool.or_eq_false_iff, decide_eq_false_iff_not]
    norm_num
  refine ⟨hg, ?_, by norm_num⟩
  unfold resolveRoot
  rw [hg, if_neg (by decide)]
  decide

/-- C7 amended: `resolveRoot` throws *InvalidCaret* iff a caret is
supplied and is negative or greater than 1 (so values strictly between 0
and 1 pass the guard, and an absent caret never throws it); with the
guard passed, it throws *InvalidRoot* exactly for root names that are
neither well-known nor keys of the dynamically-registered data roots. -/
theorem c7_root_error_conditions :
    (∀ (c : ℚ) (name : String) (roots : List String),
        resolveRoot name (some c) roots = .invalidCaretThrow ↔ (c < 0 ∨ 1 < c)) ∧
    (∀ (name : String) (roots : List String),
        resolveRoot name none roots ≠ .invalidCaretThrow) ∧
    (∀ (name : String) (roots : List String) (caret : Option ℚ),
        caretGuardThrows caret = false →
        (resolveRoot name caret roots = .invalidRootThrow ↔
          name ∉ wellKnownRoots ∧ roots.contains name = false)) := by
  refine ⟨?_, ?_, ?_⟩
  · intro c name roots
    by_cases hcv : c < 0 ∨ 1 < c
    · have hg : caretGuardThrows (some c) = true := by
        rcases hcv with h | h <;> simp [caretGuardThrows, h]
      unfold resolveRoot
      rw [hg, if_pos rfl]
      exact ⟨fun _ => hcv, fun _ => rfl⟩
    · have hg : caretGuardThrows (some c) = false := by
        simp only [caretGuardThrows, Bool.or_eq_false_iff, decide_eq_false_iff_not]
        exact ⟨fun h => hcv (Or.inl h), fun h => hcv (Or.inr h)⟩
      exact iff_of_false (resolveRoot_guard_false hg) hcv
  · intro name roots
    exact resolveRoot_guard_false rfl
  · intro name roots caret hg
    by_cases hnm : name ∈ wellKnownRoots
    · obtain ⟨v, hv⟩ := resolveRoot_wellKnown_resolved name caret roots hg hnm
      rw [hv]
      constructor
      · intro hc; cases hc
      · rintro ⟨hn, _⟩; exact absurd hnm hn
    · rw [resolveRoot_notWellKnown name caret roots hg hnm]
      by_cases hc : roots.contains name
      · rw [if_pos hc]
        constructor
        · intro hx; cases hx
        · rintro ⟨_, hf⟩; rw [hc] at hf; cases hf
      · rw [if_neg hc]
        simp only [Bool.not_eq_true] at hc
        exact ⟨fun _ => ⟨hnm, hc⟩, fun _ => rfl⟩

/-- C7 witness: a caret of `2` throws *InvalidCaret*; an unknown root name
with no caret throws *InvalidRoot*; a registered dynamic data root does
not throw *InvalidCaret*. -/
theorem c7_witness :
    resolveRoot "local" (some (2 : ℚ)) [] = .invalidCaretThrow ∧
    resolveRoot "bogus" none ["appdata"] = .invalidRootThrow ∧
    resolveRoot "appdata" none ["appdata"] ≠ .invalidCaretThrow := by
  refine ⟨?_, ?_, c7_root_error_conditions.2.1 "appdata" ["appdata"]⟩
  · exact (c7_root_error_conditions.1 2 "local" []).mpr (by norm_num)
  · exact (c7_root_error_conditions.2.2 "bogus" ["appdata"] none rfl).mpr (by decide)

/-- C8 counterexample: `"load"` is on the `eventBubbles` exemption list,
yet a `"load"` event whose `bubble` flag is set, dispatched at a boundary
that lacks a handler for it, **does** recurse to the parent boundary and
runs its handler — `fireEvent` never consults `eventBubbles`, only
`event.bubble`.  This refutes "never recurses to the parent boundary
regardless of the event's bubble flag". -/
theorem c8_counterexample :
    eventBubbles "load" = false ∧
    lookupStr "load" c8inner.handlers = none ∧
    fireEvent { event := "load", bubble := true } false c8env =
      .ran "outer-load-src"
        (makeSpecialChildEnv [c8outer] [] { htmlContext := some "event-bubble(load)" })
        .catching := by
  refine ⟨rfl, by decide, ?_⟩
  rw [fireEvent_bubble (show getEventBoundary (some "load") c8env = some [c8inner, c8outer]
      by decide)
    (show lookupStr "load" c8inner.handlers = none by decide) rfl (by decide)]
  rw [fireEvent_ran (show getEventBoundary (some "load") [c8outer] = some [c8outer] by decide)
    (show lookupStr "load" c8outer.handlers = some "outer-load-src" by decide)]
  decide

/-- C8 amended: whether an event propagates past a boundary that does not
claim it is governed solely by the event's own `bubble` flag — the
`eventBubbles` exemption list ("load", "x"-prefixed) exists in the source
but is never consulted by dispatch.  Consequently any event whose `bubble`
flag is unset (which is how callers are meant to encode the exemption)
never recurses past a non-claiming boundary, while an exempt-named event
whose flag is set does recurse (see the counterexample). -/
theorem c8_bubble_flag_governs_propagation :
    eventBubbles "load" = false ∧ eventBubbles "xcustom" = false ∧
    ∀ (env : DataEnvironment) (ev : EventType) (tE : Bool)
      (f : EnvFrame) (rest : DataEnvironment),
      ev.bubble = false →
      getEventBoundary (some ev.event) env = some (f :: rest) →
      lookupStr ev.event f.handlers = none →
      fireEvent ev tE env = .noop := by
  refine ⟨by decide, by decide, ?_⟩
  intro env ev tE f rest hbub hb hh
  exact fireEvent_noop hb hh (Or.inl hbub)

/-- C8 witness: a non-bubbling `"load"` event at the non-claiming inner
boundary of the concrete chain is a silent no-op. -/
theorem c8_witness :
    fireEvent { event := "load", bubble := false } false c8env = .noop :=
  c8_bubble_flag_governs_propagation.2.2 c8env { event := "load", bubble := false }
    false c8inner [c8outer] rfl (by decide) (by decide)

/-! ### C8 / C10: bubbling across boundaries -/

/-- No dispatch that reaches a handler with `throwErrors` falsy ever starts
it on the throwing path: `fireEvent(event, rtctx)` with no third argument
always executes through `ExecuteBlockP`. -/
theorem fireEvent_false_catching_bounded :
    ∀ (n : ℕ) (env : DataEnvironment), env.length ≤ n →
      ∀ (ev : EventType) (s : String) (e : DataEnvironment) (m : ExecMode),
        fireEvent ev false env = .ran s e m → m = .catching := by
  intro n
  induction n with
  | zero =>
    intro env hlen ev s e m h
    have henv : env = [] := List.length_eq_zero.mp (Nat.le_zero.mp hlen)
    subst henv
    rw [fireEvent_unhandled (by simp [getEventBoundary])] at h
    cases h
  | succ n ih =>
    intro env hlen ev s e m h
    cases hb : getEventBoundary (some ev.event) env with
    | none => rw [fireEvent_unhandled hb] at h; cases h
    | some benv =>
      cases benv with
      | nil => exact absurd hb (getEventBoundary_ne_nil _ _)
      | cons f rest =>
        cases hh : lookupStr ev.event f.handlers with
        | some hstr =>
          rw [fireEvent_ran hb hh] at h
          injection h with _ _ hm
          simp at hm
          exact hm.symm
        | none =>
          by_cases hstop : ev.bubble = false ∨ rest = []
          · rw [fireEvent_noop hb hh hstop] at h; cases h
          · push_neg at hstop
            rw [fireEvent_bubble hb hh (by simpa using hstop.1) hstop.2] at h
            have hlr : rest.length ≤ n := by
              have hle := getEventBoundary_length_le (some ev.event) env (f :: rest) hb
              simp only [List.length_cons] at hle
              omega
            exact ih rest hlr ev s e m h

/-- C10: for every event fired with `throwErrors = true` whose resolved
boundary lacks a handler for the name and which bubbles onward, whatever
handler the recursion eventually runs is started on the error-catching
path (`ExecuteBlockP`): the source recurses as
`env.parent.fireEvent(event, rtctx)`, dropping the `throwErrors` argument,
so the flag does not survive one bubbling hop. -/
theorem c10_bubbled_handler_runs_catching
    (env : DataEnvironment) (ev : EventType) (f : EnvFrame) (rest : DataEnvironment)
    (hb : getEventBoundary (some ev.event) env = some (f :: rest))
    (hh : lookupStr ev.event f.handlers = none)
    (hbub : ev.bubble = true) (hrest : rest ≠ [])
    (s : String) (e : DataEnvironment) (m : ExecMode)
    (hrun : fireEvent ev true env = .ran s e m) : m = .catching := by
  rw [fireEvent_bubble hb hh hbub hrest] at hrun
  exact fireEvent_false_catching_bounded rest.length rest (le_refl _) ev s e m hrun

/-- C10 witness: on the concrete two-boundary chain, an `"ev"` dispatch
with `throwErrors = true` bubbles past the inner boundary and runs the
outer handler in catching mode. -/
theorem c10_witness :
    fireEvent { event := "ev", bubble := true } true c10env =
      .ran "outer-src"
        (makeSpecialChildEnv [c10outer] [] { htmlContext := some "event-bubble(ev)" })
        .catching ∧
    ExecMode.catching = ExecMode.catching := by
  have hb : getEventBoundary (some "ev") c10env = some [c10inner, c10outer] := by decide
  have heval : fireEvent { event := "ev", bubble := true } true c10env =
      .ran "outer-src"
        (makeSpecialChildEnv [c10outer] [] { htmlContext := some "event-bubble(ev)" })
        .catching := by
    rw [fireEvent_bubble hb (show lookupStr "ev" c10inner.handlers = none by decide)
      rfl (by decide)]
    rw [fireEvent_ran (show getEventBoundary (some "ev") [c10outer] = some [c10outer] by decide)
      (show lookupStr "ev" c10outer.handlers = some "outer-src" by decide)]
    decide
  exact ⟨heval,
    c10_bubbled_handler_runs_catching c10env { event := "ev", bubble := true }
      c10inner [c10outer] hb (by decide) rfl (by decide) "outer-src"
      (makeSpecialChildEnv [c10outer] [] { htmlContext := some "event-bubble(ev)" })
      ExecMode.catching heval⟩

/-! ### C9: the initialization callback queue -/

/-- C9: a callback registered after initialization completed runs
immediately and synchronously inside `setInitCallback` (and is not
queued); a callback registered before runs not at registration time but
is queued, and `setInitialized` then invokes it exactly once. -/
theorem c9_init_callback_queue :
    (∀ (st : InitState) (fn : ℕ), st.initialized = true →
        setInitCallback st fn = (st, [fn])) ∧
    (∀ (st : InitState) (fn : ℕ), st.initialized = false →
        setInitCallback st fn =
          ({ st with initCallbacks := st.initCallbacks ++ [fn] }, [])) ∧
    (∀ (st : InitState) (fn : ℕ), st.initialized = false → fn ∉ st.initCallbacks →
        ((setInitialized (setInitCallback st fn).1).2).count fn = 1) := by
  refine ⟨?_, ?_, ?_⟩
  · intro st fn h; simp [setInitCallback, h]
  · intro st fn h; simp [setInitCallback, h]
  · intro st fn h hmem
    simp [setInitCallback, setInitialized, h, List.count_append,
      List.count_eq_zero.mpr hmem]

/-- C9 witness: with the flag already set, callback `7` runs during
registration; starting uninitialized with an empty queue, callback `7` is
queued silently and `setInitialized` runs it exactly once. -/
theorem c9_witness :
    setInitCallback { initialized := true } 7 = ({ initialized := true }, [7]) ∧
    setInitCallback {} 7 = ({ initCallbacks := [7] }, []) ∧
    ((setInitialized (setInitCallback {} 7).1).2).count 7 = 1 := by
  refine ⟨c9_init_callback_queue.1 { initialized := true } 7 rfl,
    c9_init_callback_queue.2.1 {} 7 rfl,
    c9_init_callback_queue.2.2 {} 7 rfl (by simp)⟩
